import Mathlib

/-!
Verification development for the Anytron media pipeline (Rust).

The Rust sources are shallowly embedded: strings are `List Char`, machine
integers are `Nat` with an explicit `% 2 ^ 64` where u64 overflow matters
(release-mode wraparound semantics), filesystem and external-process effects
are explicit state passing over a `World` record together with an oracle for
the external tool, and fallible code returns `Except`.

Embedded modules:
  src/subtitle/types.rs   (Timestamp, SubtitleEntry)
  src/subtitle/srt.rs     (parse_str)
  src/subtitle/ass.rs     (parse_str)
  src/discovery/episode.rs (EpisodeId::from_filename)
  src/discovery/scanner.rs (score_external_subtitle, select_best_external_subtitle)
  src/extractor/ffmpeg.rs (ExtractionTask::execute, FrameExtractor::extract_frames,
                           quality_to_qscale)
-/

/-- Strings from the Rust side are modelled as lists of characters. -/
abbrev Str := List Char

/-- Modulus of the Rust `u64` type. -/
def U64 : Nat := 2 ^ 64

/-- Wraparound of Rust `u64` arithmetic.  Addition and multiplication commute
with `% U64`, so a chain of wrapping `u64` operations equals a single final
reduction of the exact natural-number value. -/
def wrap64 (n : Nat) : Nat := n % U64

/-- Rust `char::is_whitespace` (the Unicode White_Space property), used by
`str::trim` and `str::split_whitespace`. -/
def isRustWhitespace (c : Char) : Bool :=
  let n := c.toNat
  (9 ≤ n && n ≤ 13) || n == 32 || n == 0x85 || n == 0xA0 || n == 0x1680 ||
  (0x2000 ≤ n && n ≤ 0x200A) || n == 0x2028 || n == 0x2029 || n == 0x202F ||
  n == 0x205F || n == 0x3000

/-- Rust `str::trim`: remove leading and trailing whitespace. -/
def strTrim (s : Str) : Str :=
  ((s.dropWhile isRustWhitespace).reverse.dropWhile isRustWhitespace).reverse

/-- Rust `str::split` with a slice-of-chars pattern: split at every occurrence
of any separator character, keeping empty pieces. -/
def splitAny (seps : List Char) : Str → List Str
  | [] => [[]]
  | c :: rest =>
    if seps.contains c then [] :: splitAny seps rest
    else
      match splitAny seps rest with
      | [] => [[c]]
      | p :: ps => (c :: p) :: ps

/-- Numeric value of a list of ASCII digit characters (most significant first). -/
def digitsVal (ds : Str) : Nat :=
  ds.foldl (fun a c => a * 10 + (c.toNat - 48)) 0

/-- ASCII digit test (Rust numeric parsing accepts exactly the ASCII
digits). -/
def isDigitChar (c : Char) : Bool := 48 ≤ c.toNat && c.toNat ≤ 57

/-- Rust `str::parse::<u64>`: an optional leading plus sign, then one or more
ASCII digits; fails on anything else and on values outside the `u64` range. -/
def parseU64 (s : Str) : Option Nat :=
  let ds := if s.headD ' ' == '+' then s.tail else s
  if ds.isEmpty then none
  else if ds.all isDigitChar then
    let v := digitsVal ds
    if v < U64 then some v else none
  else none

/-- Rust `str::parse::<u32>` (same grammar as `u64`, smaller range). -/
def parseU32 (s : Str) : Option Nat :=
  let ds := if s.headD ' ' == '+' then s.tail else s
  if ds.isEmpty then none
  else if ds.all isDigitChar then
    let v := digitsVal ds
    if v < 2 ^ 32 then some v else none
  else none

/-- ASCII digit character for a value below 10. -/
def decDigit (d : Nat) : Char := Char.ofNat (48 + d)

/-- Decimal digits of a number, most significant first; structurally recursive
on a fuel argument so that it reduces inside the kernel. -/
def decDigitsAux : Nat → Nat → Str
  | 0, _ => []
  | fuel + 1, n =>
    if n < 10 then [decDigit n]
    else decDigitsAux fuel (n / 10) ++ [decDigit (n % 10)]

/-- Decimal representation of a number, as produced by Rust integer
formatting.  Fuel 24 covers every value below 10 ^ 24, in particular every
`u64` (at most 20 digits). -/
def decRepr (n : Nat) : Str := decDigitsAux 24 n

/-- Left-pad with zeros to the given width (Rust format specifier 0N). -/
def padZeros (w : Nat) (s : Str) : Str := List.replicate (w - s.length) '0' ++ s

/-- Rust format specifier 02. -/
def fmt02 (n : Nat) : Str := padZeros 2 (decRepr n)

/-- Rust format specifier 03. -/
def fmt03 (n : Nat) : Str := padZeros 3 (decRepr n)

/-- The variants of `error.rs::AnytronError` reachable from the embedded
code. -/
inductive AnytronError where
  | Discovery (msg : Str)
  | SubtitleParse (path : Str) (line : Nat) (message : Str)
  | Ffmpeg (msg : Str)
  | FfmpegNotFound
  | FrameExtraction (video : Str) (timestamp : Nat) (message : Str)
  | InvalidEpisodeFormat (filename : Str)
  | InvalidTimestamp (msg : Str)
  deriving DecidableEq, Repr

/-- The `Display` rendering of the errors that flow into other error
messages (`thiserror` format strings from error.rs). -/
def AnytronError.display : AnytronError → Str
  | .Discovery m => "Discovery error: ".data ++ m
  | .SubtitleParse p l m =>
      "Subtitle parse error in ".data ++ p ++ " at line ".data ++ decRepr l ++ ": ".data ++ m
  | .Ffmpeg m => "FFmpeg error: ".data ++ m
  | .FfmpegNotFound => "FFmpeg not found. Please install FFmpeg and ensure it's in your PATH".data
  | .FrameExtraction v t m =>
      "Failed to extract frame at ".data ++ decRepr t ++ "ms from ".data ++ v ++ ": ".data ++ m
  | .InvalidEpisodeFormat f =>
      "Invalid episode format in filename ".data ++ f ++ ". Expected SXXEXX pattern".data
  | .InvalidTimestamp m => "Invalid timestamp: ".data ++ m

deriving instance DecidableEq for Except

/-- Timestamp in milliseconds (`types.rs`, a `u64` newtype). -/
structure Timestamp where
  ms : Nat
  deriving DecidableEq, Repr

/-- Timestamp::from_hms_ms.  The `u64` products and sums wrap on overflow
(release-mode semantics); a single final reduction is equivalent. -/
def Timestamp.from_hms_ms (hours minutes seconds millis : Nat) : Timestamp :=
  ⟨wrap64 (hours * 3600 * 1000 + minutes * 60 * 1000 + seconds * 1000 + millis)⟩

/-- Field helper shared by the three timestamp grammars: parse one numeric
component, or report the given message followed by the offending text. -/
def parseTsField (msg : Str) (p : Str) : Except AnytronError Nat :=
  match parseU64 p with
  | some v => .ok v
  | none => .error (.InvalidTimestamp (msg ++ p))

/-- Timestamp::parse_srt: HH:MM:SS,mmm with range validation. -/
def Timestamp.parse_srt (s : Str) : Except AnytronError Timestamp := do
  let s := strTrim s
  match splitAny [':', ','] s with
  | [p0, p1, p2, p3] =>
    let hours ← parseTsField "Invalid hours: ".data p0
    let minutes ← parseTsField "Invalid minutes: ".data p1
    let seconds ← parseTsField "Invalid seconds: ".data p2
    let millis ← parseTsField "Invalid millis: ".data p3
    if hours > 23 then
      .error (.InvalidTimestamp ("Invalid hours (must be 0-23): ".data ++ decRepr hours))
    else if minutes > 59 then
      .error (.InvalidTimestamp ("Invalid minutes (must be 0-59): ".data ++ decRepr minutes))
    else if seconds > 60 then
      .error (.InvalidTimestamp ("Invalid seconds (must be 0-60): ".data ++ decRepr seconds))
    else if millis > 999 then
      .error (.InvalidTimestamp ("Invalid milliseconds (must be 0-999): ".data ++ decRepr millis))
    else
      .ok (Timestamp.from_hms_ms hours minutes seconds millis)
  | _ => .error (.InvalidTimestamp ("Invalid SRT timestamp: ".data ++ s))

/-- Timestamp::parse_ass: H:MM:SS.cc with range validation; centiseconds are
multiplied by 10. -/
def Timestamp.parse_ass (s : Str) : Except AnytronError Timestamp := do
  let s := strTrim s
  match splitAny [':', '.'] s with
  | [p0, p1, p2, p3] =>
    let hours ← parseTsField "Invalid hours: ".data p0
    let minutes ← parseTsField "Invalid minutes: ".data p1
    let seconds ← parseTsField "Invalid seconds: ".data p2
    let centis ← parseTsField "Invalid centiseconds: ".data p3
    if hours > 23 then
      .error (.InvalidTimestamp ("Invalid hours (must be 0-23): ".data ++ decRepr hours))
    else if minutes > 59 then
      .error (.InvalidTimestamp ("Invalid minutes (must be 0-59): ".data ++ decRepr minutes))
    else if seconds > 60 then
      .error (.InvalidTimestamp ("Invalid seconds (must be 0-60): ".data ++ decRepr seconds))
    else if centis > 99 then
      .error (.InvalidTimestamp ("Invalid centiseconds (must be 0-99): ".data ++ decRepr centis))
    else
      .ok (Timestamp.from_hms_ms hours minutes seconds (centis * 10))
  | _ => .error (.InvalidTimestamp ("Invalid ASS timestamp: ".data ++ s))

/-- Timestamp::parse_vtt: HH:MM:SS.mmm or MM:SS.mmm, no range validation. -/
def Timestamp.parse_vtt (s : Str) : Except AnytronError Timestamp := do
  let s := strTrim s
  match splitAny [':', '.'] s with
  | [p0, p1, p2] =>
    let minutes ← parseTsField "Invalid minutes: ".data p0
    let seconds ← parseTsField "Invalid seconds: ".data p1
    let millis ← parseTsField "Invalid millis: ".data p2
    .ok (Timestamp.from_hms_ms 0 minutes seconds millis)
  | [p0, p1, p2, p3] =>
    let hours ← parseTsField "Invalid hours: ".data p0
    let minutes ← parseTsField "Invalid minutes: ".data p1
    let seconds ← parseTsField "Invalid seconds: ".data p2
    let millis ← parseTsField "Invalid millis: ".data p3
    .ok (Timestamp.from_hms_ms hours minutes seconds millis)
  | _ => .error (.InvalidTimestamp ("Invalid VTT timestamp: ".data ++ s))

/-- Timestamp::to_ffmpeg: format as HH:MM:SS.mmm (all operations on `u64`
are divisions and remainders, which never overflow). -/
def Timestamp.to_ffmpeg (t : Timestamp) : Str :=
  let total_secs := t.ms / 1000
  let millis := t.ms % 1000
  let hours := total_secs / 3600
  let minutes := (total_secs % 3600) / 60
  let seconds := total_secs % 60
  fmt02 hours ++ ':' :: (fmt02 minutes ++ ':' :: (fmt02 seconds ++ '.' :: fmt03 millis))

/-- One fused pass implementing `Regex::replace_all` with pattern
`LO [^HI]+ HI` (leftmost, non-overlapping): the state holds the pending
characters seen since an opening delimiter (in reverse).  An opening
delimiter immediately followed by the closing one has empty content and is
not a match; an opening delimiter with no closing one is kept verbatim. -/
def stripDelimGo (lo hi : Char) : Str → Option Str → Str
  | [], none => []
  | [], some pend => lo :: pend.reverse
  | c :: rest, none =>
    if c = lo then stripDelimGo lo hi rest (some [])
    else c :: stripDelimGo lo hi rest none
  | c :: rest, some pend =>
    if c = hi then
      if pend.isEmpty then lo :: hi :: stripDelimGo lo hi rest none
      else stripDelimGo lo hi rest none
    else stripDelimGo lo hi rest (some (c :: pend))

/-- Rust `str::split_whitespace`: maximal runs of non-whitespace characters. -/
def wordsOfAux : Str → Str → List Str
  | [], acc => if acc.isEmpty then [] else [acc.reverse]
  | c :: rest, acc =>
    if isRustWhitespace c then
      if acc.isEmpty then wordsOfAux rest [] else acc.reverse :: wordsOfAux rest []
    else wordsOfAux rest (c :: acc)

/-- SubtitleEntry::clean_text: strip HTML-like tags, strip brace-delimited
override tags, collapse whitespace runs to single spaces, trim. -/
def clean_text (text : Str) : Str :=
  let text := stripDelimGo '<' '>' text none
  let text := stripDelimGo '\x7b' '\x7d' text none
  let text := List.intercalate [' '] (wordsOfAux text [])
  strTrim text

/-- A single subtitle entry (`types.rs`).  The Rust field named `end` is
rendered `endTs` because `end` is reserved in Lean. -/
structure SubtitleEntry where
  index : Nat
  start : Timestamp
  endTs : Timestamp
  text : Str
  text_clean : Str
  deriving DecidableEq, Repr

/-- SubtitleEntry::new: `text_clean` is derived from `text` at construction. -/
def SubtitleEntry.new (index : Nat) (start endTs : Timestamp) (text : Str) : SubtitleEntry :=
  { index, start, endTs, text, text_clean := clean_text text }

/-- SubtitleEntry::midpoint: `(start.0 + end.0) / 2` with a wrapping `u64`
addition. -/
def SubtitleEntry.midpoint (e : SubtitleEntry) : Timestamp :=
  ⟨wrap64 (e.start.ms + e.endTs.ms) / 2⟩

/-- Rust `String::replace` of the two-character pattern CRLF by LF
(leftmost, non-overlapping). -/
def replaceCRLF : Str → Str
  | '\r' :: '\n' :: rest => '\n' :: replaceCRLF rest
  | c :: rest => c :: replaceCRLF rest
  | [] => []

/-- Strip one trailing carriage return, as Rust `str::lines` does per line. -/
def stripTrailingCR (l : Str) : Str :=
  match l.reverse with
  | '\r' :: r => r.reverse
  | _ => l

/-- Rust `str::lines`: split at LF, drop a final empty piece (the final line
ending is optional), strip one trailing CR from each line. -/
def linesOf (s : Str) : List Str :=
  let pieces := splitAny ['\n'] s
  let pieces := if pieces.getLast? = some [] then pieces.dropLast else pieces
  pieces.map stripTrailingCR

/-- Rust `str::split` on the two-character pattern LF LF (leftmost,
non-overlapping), as used to cut SRT content into blocks. -/
def splitNN : Str → List Str
  | '\n' :: '\n' :: rest => [] :: splitNN rest
  | c :: rest =>
    match splitNN rest with
    | [] => [[c]]
    | p :: ps => (c :: p) :: ps
  | [] => [[]]

/-- Rust `str::split` on the three-character arrow pattern of SRT timestamp
lines. -/
def splitArrow : Str → List Str
  | '-' :: '-' :: '>' :: rest => [] :: splitArrow rest
  | c :: rest =>
    match splitArrow rest with
    | [] => [[c]]
    | p :: ps => (c :: p) :: ps
  | [] => [[]]

namespace Srt

/-- srt.rs parse_timestamp_line: split on the arrow, parse both sides. -/
def parse_timestamp_line (line : Str) : Except Str (Timestamp × Timestamp) :=
  match splitArrow line with
  | [a, b] =>
    match Timestamp.parse_srt (strTrim a) with
    | .error e => .error ("Invalid start timestamp: ".data ++ e.display)
    | .ok start =>
      match Timestamp.parse_srt (strTrim b) with
      | .error e => .error ("Invalid end timestamp: ".data ++ e.display)
      | .ok stop => .ok (start, stop)
  | _ => .error ("Invalid timestamp line: ".data ++ line)

/-- Body of the block loop of srt.rs parse_str. -/
def parseBlocks (path : Str) : List Str → List SubtitleEntry → Except AnytronError (List SubtitleEntry)
  | [], entries => .ok entries
  | block :: rest, entries =>
    let block := strTrim block
    if block.isEmpty then parseBlocks path rest entries
    else
      let lines := linesOf block
      if lines.length < 3 then parseBlocks path rest entries
      else
        match parseU64 (strTrim (lines.headD [])) with
        | none => parseBlocks path rest entries
        | some index =>
          match parse_timestamp_line (strTrim (lines.getD 1 [])) with
          | .error e => .error (.SubtitleParse path index e)
          | .ok (start, stop) =>
            let text := List.intercalate ['\n'] (lines.drop 2)
            parseBlocks path rest (entries ++ [SubtitleEntry.new index start stop text])

/-- srt.rs parse_str: strip a leading byte-order mark, split into blocks on
double-LF boundaries, parse each block. -/
def parse_str (content : Str) (path : Str) : Except AnytronError (List SubtitleEntry) :=
  let content := content.dropWhile (· == '\uFEFF')
  parseBlocks path (splitNN content) []

end Srt

/-- Perl-style word class used by the episode patterns (ASCII whitespace as
matched by the backslash-s class of the regex engine). -/
def isRegexWs (c : Char) : Bool :=
  c == ' ' || c == '\t' || c == '\n' || c.toNat == 11 || c.toNat == 12 || c == '\r'

/-- ASCII lower-casing, as applied by Rust case-insensitive comparisons on
the ASCII inputs that occur here. -/
def asciiLower (c : Char) : Char :=
  if 65 ≤ c.toNat && c.toNat ≤ 90 then Char.ofNat (c.toNat + 32) else c

/-- Items of the four episode-identifier regular expressions
(episode.rs EPISODE_PATTERNS): a character class, a literal (exact or
case-insensitive), a greedy bounded run of digits forming a capture group,
and a greedy unbounded run of whitespace. -/
inductive RItem where
  | oneOf (cs : List Char)
  | lit (s : Str)
  | litCI (s : Str)
  | digits (lo hi : Nat)
  | wsStar
  deriving DecidableEq, Repr

/-- Backtracking matcher for a sequence of items anchored at the start of
the input, returning the captured digit groups in order.  Greedy repeats try
longer consumption first, mirroring the leftmost-first priority of the
source regex engine. -/
def matchItems : List RItem → Str → Option (List Str)
  | [], _ => some []
  | .oneOf cs :: items, s =>
    match s with
    | c :: rest => if cs.contains c then matchItems items rest else none
    | [] => none
  | .lit l :: items, s =>
    if s.take l.length = l then matchItems items (s.drop l.length) else none
  | .litCI l :: items, s =>
    if (s.take l.length).map asciiLower = l then matchItems items (s.drop l.length) else none
  | .digits lo hi :: items, s =>
    let tryK : Nat → Option (List Str) := fun k =>
      let pre := s.take k
      if pre.length = k && pre.all Char.isDigit then
        match matchItems items (s.drop k) with
        | some caps => some (pre :: caps)
        | none => none
      else none
    ((List.range (hi + 1)).reverse.filter (fun k => lo ≤ k)).foldl
      (fun acc k => match acc with | some r => some r | none => tryK k) none
  | .wsStar :: items, s =>
    let run := (s.takeWhile isRegexWs).length
    (List.range (run + 1)).reverse.foldl
      (fun acc k => match acc with | some r => some r | none => matchItems items (s.drop k)) none

/-- Leftmost search: try a match at every start position, earliest wins
(`Regex::captures` semantics for these patterns). -/
def regexSearch (items : List RItem) : Str → Option (List Str)
  | [] => matchItems items []
  | c :: rest =>
    match matchItems items (c :: rest) with
    | some caps => some caps
    | none => regexSearch items rest

/-- Pattern SxxEyy: case-insensitive S, 1-2 digit season, case-insensitive
E, 1-3 digit episode. -/
def pat_sxxeyy : List RItem := [.oneOf ['S', 's'], .digits 1 2, .oneOf ['E', 'e'], .digits 1 3]

/-- Pattern NxNN: 1-2 digits, a lowercase x, 1-3 digits. -/
def pat_nxnn : List RItem := [.digits 1 2, .lit ['x'], .digits 1 3]

/-- Pattern Season N Episode NN with flexible whitespace, case-insensitive. -/
def pat_season_episode : List RItem :=
  [.litCI "season".data, .wsStar, .digits 1 2, .wsStar, .litCI "episode".data, .wsStar, .digits 1 3]

/-- Pattern [NxNN]: the NxNN form inside square brackets. -/
def pat_brackets : List RItem := [.lit ['['], .digits 1 2, .lit ['x'], .digits 1 3, .lit [']']]

/-- episode.rs EPISODE_PATTERNS, in their fixed priority order. -/
def EPISODE_PATTERNS : List (List RItem) := [pat_sxxeyy, pat_nxnn, pat_season_episode, pat_brackets]

/-- Episode identifier (season + episode number), episode.rs. -/
structure EpisodeId where
  season : Nat
  episode : Nat
  deriving DecidableEq, Repr

/-- Scan of the ordered pattern list in EpisodeId::from_filename: the first
pattern whose leftmost match parses to season and episode both positive
wins; a structural match with a zero component falls through to the next
pattern.  Group parse failure yields 0 via unwrap_or. -/
def EpisodeId.from_filenameGo (filename : Str) : List (List RItem) → Except AnytronError EpisodeId
  | [] => .error (.InvalidEpisodeFormat filename)
  | pat :: pats =>
    match regexSearch pat filename with
    | some caps =>
      let season := ((caps.get? 0).bind parseU32).getD 0
      let episode := ((caps.get? 1).bind parseU32).getD 0
      if season > 0 && episode > 0 then .ok ⟨season, episode⟩
      else EpisodeId.from_filenameGo filename pats
    | none => EpisodeId.from_filenameGo filename pats

/-- EpisodeId::from_filename: try the fixed-priority pattern list. -/
def EpisodeId.from_filename (filename : Str) : Except AnytronError EpisodeId :=
  EpisodeId.from_filenameGo filename EPISODE_PATTERNS

/-- Rust `str::contains` with a string pattern: substring test. -/
def containsSub (needle : Str) : Str → Bool
  | [] => needle.isEmpty
  | c :: rest => needle.isPrefixOf (c :: rest) || containsSub needle rest

/-- Rust `Path::file_name` on the slash-separated paths used here: the last
path component (empty when absent, matching unwrap_or of the source). -/
def fileName (p : Str) : Str := (splitAny ['/'] p).getLastD []

/-- Name of the immediate parent directory: the next-to-last path component
(empty when absent, matching unwrap_or of the source). -/
def parentName (p : Str) : Str := ((splitAny ['/'] p).dropLast).getLastD []

/-- scanner.rs ENGLISH_PATTERNS. -/
def ENGLISH_PATTERNS : List Str :=
  [".en.".data, ".eng.".data, ".english.".data, "_en.".data, "_eng.".data,
   "_english.".data, "-en.".data, "-eng.".data, "-english.".data,
   ".en-us.".data, ".en-gb.".data, ".en_us.".data, ".en_gb.".data]

/-- scanner.rs NON_ENGLISH_PATTERNS. -/
def NON_ENGLISH_PATTERNS : List Str :=
  [".es.".data, ".spa.".data, ".spanish.".data, ".fr.".data, ".fra.".data,
   ".french.".data, ".de.".data, ".deu.".data, ".ger.".data, ".german.".data,
   ".it.".data, ".ita.".data, ".italian.".data, ".pt.".data, ".por.".data,
   ".portuguese.".data, ".ru.".data, ".rus.".data, ".russian.".data,
   ".ja.".data, ".jpn.".data, ".japanese.".data, ".ko.".data, ".kor.".data,
   ".korean.".data, ".zh.".data, ".chi.".data, ".chinese.".data]

/-- The hearing-impaired markers tested by the inline disjunction in
Scanner::score_external_subtitle, in source order. -/
def SDH_PATTERNS : List Str :=
  [".sdh.".data, "_sdh.".data, "-sdh.".data, ".cc.".data, "_cc.".data,
   "-cc.".data, ".hi.".data, "_hi.".data, "-hi.".data,
   "[sdh]".data, "[cc]".data, "[hi]".data]

/-- Scanner::score_external_subtitle: bonuses and penalties over the
lower-cased file name and parent directory name. -/
def score_external_subtitle (path : Str) : Int :=
  let filename := (fileName path).map asciiLower
  let parent_name := (parentName path).map asciiLower
  let score : Int := 0
  let score := if ENGLISH_PATTERNS.any (fun p => containsSub p filename) then score + 1000 else score
  let score :=
    if parent_name == "english".data || parent_name == "eng".data || parent_name == "en".data
    then score + 500 else score
  let score := if NON_ENGLISH_PATTERNS.any (fun p => containsSub p filename) then score - 500 else score
  let score := if SDH_PATTERNS.any (fun p => containsSub p filename) then score - 100 else score
  let score := if ".srt".data.isSuffixOf filename then score + 10 else score
  score

/-- Insert behind every element of greater or equal score: left-to-right
insertion with this placement reproduces the stable descending sort
performed by Rust sort_by with a reversed comparison. -/
def insertScoreDesc (x : Int × Str) : List (Int × Str) → List (Int × Str)
  | [] => [x]
  | y :: ys => if y.1 ≥ x.1 then y :: insertScoreDesc x ys else x :: y :: ys

/-- Stable descending sort by score. -/
def sortByScoreDesc (l : List (Int × Str)) : List (Int × Str) :=
  l.foldl (fun acc x => insertScoreDesc x acc) []

/-- Scanner::select_best_external_subtitle: empty list yields none, a
singleton is returned as-is, otherwise the candidates are scored, stably
sorted by descending score, and the first survivor wins. -/
def select_best_external_subtitle (paths : List Str) : Option Str :=
  match paths with
  | [] => none
  | [p] => some p
  | _ :: _ :: _ =>
    let scored := paths.map fun p => (score_external_subtitle p, p)
    let sorted := sortByScoreDesc scored
    sorted.head?.map (fun x => x.2)

/-- ExtractionTask::quality_to_qscale: linear map from quality 1-100 (higher
better) to the inverted 1-31 scale of the external tool.  The source
computes in f32 and rounds half away from zero; for every u8 input the f32
intermediate rounds to the same integer as the exact rational value (the
values are positive, so rounding half away from zero coincides with
rounding half up), so the embedding uses exact rationals. -/
def quality_to_qscale (quality : Nat) : Nat :=
  let normalized : ℚ := max 0 (min ((quality : ℚ) / 100) 1)
  (round ((31 : ℚ) - normalized * 30)).toNat

/-- Outcome of one external-tool invocation: the spawn itself can fail
(Command::output returning an IO error), otherwise the process exits with a
status and captured stderr. -/
inductive CmdResult where
  | spawnErr (msg : Str)
  | exited (success : Bool) (stderr : Str)
  deriving DecidableEq, Repr

/-- Observable shape of one frame-extraction invocation of the external
tool: input video, seek time, output path, quality setting, and the scale
filter width when producing a thumbnail. -/
structure Invocation where
  video : Str
  seek : Str
  out : Str
  qv : Nat
  scaleW : Option Nat
  deriving DecidableEq, Repr

/-- State of the outside world as the extractor observes it: the set of
existing files and the ordered log of external-tool invocations. -/
structure World where
  files : List Str
  runs : List Invocation
  deriving DecidableEq, Repr

/-- Path::exists on the modelled file set. -/
def World.pathExists (w : World) (p : Str) : Bool := w.files.contains p

/-- Run the external tool once: the invocation is logged, and on a
successful exit the tool has produced its output file. -/
def runCmd (oracle : Invocation → CmdResult) (w : World) (inv : Invocation) :
    World × CmdResult :=
  let r := oracle inv
  let files := match r with
    | .exited true _ => inv.out :: w.files
    | _ => w.files
  ({ files := files, runs := w.runs ++ [inv] }, r)

/-- A single frame extraction task (ffmpeg.rs ExtractionTask). -/
structure ExtractionTask where
  video_path : Str
  timestamp : Timestamp
  frame_path : Str
  thumb_path : Str
  quality : Nat
  thumb_width : Nat
  deriving DecidableEq, Repr

/-- The full-frame invocation built by ExtractionTask::execute. -/
def frameInv (t : ExtractionTask) (seek : Str) : Invocation :=
  { video := t.video_path, seek := seek, out := t.frame_path,
    qv := quality_to_qscale t.quality, scaleW := none }

/-- The thumbnail invocation built by ExtractionTask::execute: quality
setting `(qscale + 2).min(31)` and a scale filter at the thumbnail width. -/
def thumbInv (t : ExtractionTask) (seek : Str) : Invocation :=
  { video := t.video_path, seek := seek, out := t.thumb_path,
    qv := min (quality_to_qscale t.quality + 2) 31, scaleW := some t.thumb_width }

/-- The full-frame block of ExtractionTask::execute: run the frame
invocation when the frame is missing; a spawn failure surfaces as an Ffmpeg
error, a non-zero exit as a FrameExtraction error carrying video path,
timestamp and stderr.  The seek time recomputed here is the same value the
source binds once before both blocks.  The thumbnail block follows below,
and ExtractionTask::execute itself skips entirely when both outputs already
exist. -/
def frameStep (oracle : Invocation → CmdResult) (w : World) (t : ExtractionTask) :
    World × Except AnytronError Unit :=
  if !(w.pathExists t.frame_path) then
    match runCmd oracle w (frameInv t t.timestamp.to_ffmpeg) with
    | (w1, .spawnErr msg) => (w1, .error (.Ffmpeg msg))
    | (w1, .exited true _) => (w1, .ok ())
    | (w1, .exited false stderr) =>
      (w1, .error (.FrameExtraction t.video_path t.timestamp.ms stderr))
  else (w, .ok ())

/-- The thumbnail block of ExtractionTask::execute. -/
def thumbStep (oracle : Invocation → CmdResult) (w1 : World) (t : ExtractionTask) :
    World × Except AnytronError Unit :=
  if t.thumb_width != 0 && !t.thumb_path.isEmpty && !(w1.pathExists t.thumb_path) then
    match runCmd oracle w1 (thumbInv t t.timestamp.to_ffmpeg) with
    | (w2, .spawnErr msg) => (w2, .error (.Ffmpeg msg))
    | (w2, .exited true _) => (w2, .ok ())
    | (w2, .exited false stderr) =>
      (w2, .error (.FrameExtraction t.video_path t.timestamp.ms
        ("thumbnail: ".data ++ stderr)))
  else (w1, .ok ())

def ExtractionTask.execute (oracle : Invocation → CmdResult) (w : World)
    (t : ExtractionTask) : World × Except AnytronError Unit :=
  if w.pathExists t.frame_path && w.pathExists t.thumb_path then (w, .ok ())
  else
    match frameStep oracle w t with
    | (w1, .error e) => (w1, .error e)
    | (w1, .ok _) => thumbStep oracle w1 t

/-- Path join with a slash separator. -/
def pathJoin (a b : Str) : Str := a ++ '/' :: b

/-- Task construction loop of FrameExtractor::extract_frames: one task per
entry, keyed by the midpoint timestamp. -/
def mkTasks (quality thumb_width : Nat) (video_path frames_dir thumbs_dir : Str)
    (entries : List SubtitleEntry) : List ExtractionTask :=
  entries.map fun entry =>
    let timestamp := entry.midpoint
    let frame_name := decRepr timestamp.ms ++ ".jpg".data
    { video_path := video_path, timestamp := timestamp,
      frame_path := pathJoin frames_dir frame_name,
      thumb_path := pathJoin thumbs_dir frame_name,
      quality := quality, thumb_width := thumb_width }

/-- The rayon stage of extract_frames: par_iter().map(execute).collect()
executes every task and collects all results in task order.  The world is
threaded sequentially here, which records the same set of invocations
because the tasks have disjoint output paths by construction. -/
def runTasks (oracle : Invocation → CmdResult) (w : World) :
    List ExtractionTask → World × List (Except AnytronError Unit)
  | [] => (w, [])
  | t :: ts =>
    let r := ExtractionTask.execute oracle w t
    let rest := runTasks oracle r.1 ts
    (rest.1, r.2 :: rest.2)

/-- The final loop of extract_frames: return the first error of the
collected results, in task order. -/
def firstErr : List (Except AnytronError Unit) → Except AnytronError Unit
  | [] => .ok ()
  | .ok _ :: rs => firstErr rs
  | .error e :: _ => .error e

/-- FrameExtractor::extract_frames: check the tool, build one task per
entry under the img/frames and img/thumbs directories of the output root,
execute the whole batch, and return the first error.  Directory creation is
abstracted as succeeding. -/
def FrameExtractor.extract_frames (oracle : Invocation → CmdResult)
    (ffmpegAvailable : Bool) (quality thumb_width : Nat)
    (video_path episode_id output_dir : Str) (entries : List SubtitleEntry)
    (w : World) : World × Except AnytronError Unit :=
  if !ffmpegAvailable then (w, .error .FfmpegNotFound)
  else
    let frames_dir := pathJoin (pathJoin (pathJoin output_dir "img".data) "frames".data) episode_id
    let thumbs_dir := pathJoin (pathJoin (pathJoin output_dir "img".data) "thumbs".data) episode_id
    let tasks := mkTasks quality thumb_width video_path frames_dir thumbs_dir entries
    let r := runTasks oracle w tasks
    (r.1, firstErr r.2)

/-- Rust `str::split_once`: split at the first occurrence of the separator. -/
def splitOnce (sep : Char) : Str → Option (Str × Str)
  | [] => none
  | c :: rest =>
    if c = sep then some ([], rest)
    else
      match splitOnce sep rest with
      | some x => some (c :: x.1, x.2)
      | none => none

/-- Rust `String::replace` of a backslash-N escape by a newline. -/
def replaceBackN : Str → Str
  | '\\' :: 'N' :: rest => '\n' :: replaceBackN rest
  | c :: rest => c :: replaceBackN rest
  | [] => []

/-- Rust `String::replace` of a backslash-n escape by a newline. -/
def replaceBackLowN : Str → Str
  | '\\' :: 'n' :: rest => '\n' :: replaceBackLowN rest
  | c :: rest => c :: replaceBackLowN rest
  | [] => []

namespace Ass

/-- Indices for the Format fields of interest (ass.rs FormatIndices).  The
Rust field named `end` is rendered `stop`. -/
structure FormatIndices where
  start : Nat
  stop : Nat
  text : Nat
  total_fields : Nat
  deriving DecidableEq, Repr

/-- The enumerate loop of parse_format_line: last name occurrence wins. -/
def formatFold : List Str → Nat → Nat × Nat × Nat → Nat × Nat × Nat
  | [], _, acc => acc
  | f :: fs, i, (s, e, t) =>
    let fl := f.map asciiLower
    if fl = "start".data then formatFold fs (i + 1) (i, e, t)
    else if fl = "end".data then formatFold fs (i + 1) (s, i, t)
    else if fl = "text".data then formatFold fs (i + 1) (s, e, i)
    else formatFold fs (i + 1) (s, e, t)

/-- ass.rs parse_format_line: comma-separated field names after the colon,
with defaults start 1, end 2, text last. -/
def parse_format_line (line : Str) : FormatIndices :=
  let fields_str :=
    match splitOnce ':' line with
    | some x => x.2
    | none => []
  let fields := (splitAny [','] fields_str).map strTrim
  let r := formatFold fields 0 (1, 2, fields.length - 1)
  { start := r.1, stop := r.2.1, text := r.2.2, total_fields := fields.length }

/-- The field-splitting loop of parse_dialogue_line: split at the first
total_fields - 1 commas, the remainder (commas included) is the last field;
once the input is exhausted the loop keeps pushing empty fields. -/
def splitFieldsGo : Nat → Str → List Str
  | 0, remaining => [remaining]
  | k + 1, remaining =>
    match splitOnce ',' remaining with
    | some x => x.1 :: splitFieldsGo k x.2
    | none => remaining :: splitFieldsGo k []

/-- ass.rs parse_dialogue_line, threading the entry counter explicitly.  The
source indexes `fields[fmt.start]` etc. directly; the split always yields
exactly total_fields fields, and for Format lines naming the fields the
indices are in range.  The embedding uses getD with an empty-string default
(which would fail timestamp parsing) where the source would panic on a
degenerate Format line whose defaulted indices exceed the field count. -/
def parse_dialogue_line (line : Str) (fmt : FormatIndices) (index : Nat) (path : Str)
    (line_num : Nat) : Except AnytronError (Nat × Option SubtitleEntry) :=
  let content := strTrim (match splitOnce ':' line with | some x => x.2 | none => [])
  let fields := splitFieldsGo (fmt.total_fields - 1) content
  if fields.length < fmt.total_fields then .ok (index, none)
  else
    match Timestamp.parse_ass (fields.getD fmt.start []) with
    | .error e => .error (.SubtitleParse path (line_num + 1)
        ("Invalid start timestamp: ".data ++ e.display))
    | .ok start =>
      match Timestamp.parse_ass (fields.getD fmt.stop []) with
      | .error e => .error (.SubtitleParse path (line_num + 1)
          ("Invalid end timestamp: ".data ++ e.display))
      | .ok stop =>
        let text := fields.getD fmt.text []
        let text := replaceBackLowN (replaceBackN text)
        .ok (index + 1, some (SubtitleEntry.new (index + 1) start stop text))

/-- The line loop of ass.rs parse_str: bracketed lines toggle the events
section, Format lines inside it set the indices, Dialogue lines inside it
parse into entries and are a hard error while no Format line has been
seen. -/
def parseLoop (path : Str) : List (Nat × Str) → Bool → Option FormatIndices → Nat →
    List SubtitleEntry → Except AnytronError (List SubtitleEntry)
  | [], _, _, _, entries => .ok entries
  | (line_num, raw) :: rest, in_events, fmtIdx, index, entries =>
    let line := strTrim raw
    if line.headD ' ' == '[' && line.getLastD ' ' == ']' then
      parseLoop path rest (line.map asciiLower == "[events]".data) fmtIdx index entries
    else if !in_events then parseLoop path rest in_events fmtIdx index entries
    else if "format:".data.isPrefixOf (line.map asciiLower) then
      parseLoop path rest in_events (some (parse_format_line line)) index entries
    else if "dialogue:".data.isPrefixOf (line.map asciiLower) then
      match fmtIdx with
      | none => .error (.SubtitleParse path (line_num + 1)
          "Dialogue line before Format line".data)
      | some fmt =>
        match parse_dialogue_line line fmt index path line_num with
        | .error e => .error e
        | .ok (index2, some entry) =>
          parseLoop path rest in_events fmtIdx index2 (entries ++ [entry])
        | .ok (index2, none) => parseLoop path rest in_events fmtIdx index2 entries
    else parseLoop path rest in_events fmtIdx index entries

/-- ass.rs parse_str: strip a leading byte-order mark, normalize CRLF to
LF, and run the section-tracking line loop. -/
def parse_str (content : Str) (path : Str) : Except AnytronError (List SubtitleEntry) :=
  let content := content.dropWhile (· == '\uFEFF')
  let content := replaceCRLF content
  parseLoop path (linesOf content).enum false none 0 []

end Ass

/-- Characterization of the C7 hypothesis, following the claim: the 0-based
index of the first Dialogue line lying inside the [Events] section that
occurs before any Format line has been seen there, tracking sections the
way the parser does (bracketed lines toggle the section; a Format line
inside [Events] ends the search). -/
def dialogueBeforeFormatIdx : List Str → Bool → Nat → Option Nat
  | [], _, _ => none
  | raw :: rest, in_events, i =>
    let line := strTrim raw
    if line.headD ' ' == '[' && line.getLastD ' ' == ']' then
      dialogueBeforeFormatIdx rest (line.map asciiLower == "[events]".data) (i + 1)
    else if !in_events then dialogueBeforeFormatIdx rest in_events (i + 1)
    else if "format:".data.isPrefixOf (line.map asciiLower) then none
    else if "dialogue:".data.isPrefixOf (line.map asciiLower) then some i
    else dialogueBeforeFormatIdx rest in_events (i + 1)

/-- C6: the three timestamp grammars produce the specified exact millisecond
values: parse_srt "01:23:45,678" = 5025678 ms, parse_ass "1:23:45.67" =
5025670 ms (centiseconds times 10), parse_vtt "23:45.678" = 1425678 ms (the
two-component form has hours implicitly 0). -/
theorem timestamp_parsers_exact_values :
    Timestamp.parse_srt "01:23:45,678".data = .ok ⟨5025678⟩ ∧
    Timestamp.parse_ass "1:23:45.67".data = .ok ⟨5025670⟩ ∧
    Timestamp.parse_vtt "23:45.678".data = .ok ⟨1425678⟩ := by
  refine ⟨?_, ?_, ?_⟩ <;> decide

/-- C2 counterexample: SRT parsing is not invariant under CRLF line endings.
For this two-block file, the LF version parses to two entries while the CRLF
version parses to a single entry (block splitting looks for a literal LF LF
sequence, which a CRLF CRLF separator does not contain). -/
theorem srt_crlf_not_invariant :
    Srt.parse_str "1\r\n00:00:01,000 --> 00:00:02,000\r\nA\r\n\r\n2\r\n00:00:03,000 --> 00:00:04,000\r\nB".data "test.srt".data ≠
    Srt.parse_str (replaceCRLF "1\r\n00:00:01,000 --> 00:00:02,000\r\nA\r\n\r\n2\r\n00:00:03,000 --> 00:00:04,000\r\nB".data) "test.srt".data := by
  decide

/-- C2 amended: srt.rs parse_str normalizes its input only by stripping a
leading byte-order mark (parsing is invariant under prepending one); it does
not convert CRLF to LF, and blocks are split on literal double-LF
boundaries, so parsing is not invariant under CRLF line endings. -/
theorem srt_parse_bom_invariant (s : Str) (path : Str) :
    Srt.parse_str ('\uFEFF' :: s) path = Srt.parse_str s path := by
  simp [Srt.parse_str, List.dropWhile]

/-- C3: the ordered pattern scan returns season 1 episode 5 for all four
naming conventions, fails with InvalidEpisodeFormat when no pattern
matches, and treats a structural match with a zero season as non-matching,
continuing to the next pattern (last conjunct: SxxEyy matches with season
0, so the NxNN pattern decides). -/
theorem episode_from_filename_patterns :
    EpisodeId.from_filename "Show.S01E05.720p.mkv".data = .ok ⟨1, 5⟩ ∧
    EpisodeId.from_filename "show.1x05.avi".data = .ok ⟨1, 5⟩ ∧
    EpisodeId.from_filename "Season 1 Episode 05.mp4".data = .ok ⟨1, 5⟩ ∧
    EpisodeId.from_filename "[01x05] Show.mkv".data = .ok ⟨1, 5⟩ ∧
    EpisodeId.from_filename "movie.mkv".data = .error (.InvalidEpisodeFormat "movie.mkv".data) ∧
    EpisodeId.from_filename "S00E07 1x02".data = .ok ⟨1, 2⟩ := by
  refine ⟨?_, ?_, ?_, ?_, ?_, ?_⟩ <;> decide

/-- C4: external subtitle scoring orders the three candidates strictly
(plain English above English-SDH above Spanish), so the selector returns
the plain English file from the candidate list. -/
theorem external_subtitle_selection :
    score_external_subtitle "Show.S01E01.en.srt".data >
      score_external_subtitle "Show.S01E01.en.sdh.srt".data ∧
    score_external_subtitle "Show.S01E01.en.sdh.srt".data >
      score_external_subtitle "Show.S01E01.es.srt".data ∧
    select_best_external_subtitle
      ["S01E01.es.srt".data, "S01E01.en.srt".data, "S01E01.en.sdh.srt".data] =
      some "S01E01.en.srt".data := by
  refine ⟨?_, ?_, ?_⟩ <;> decide

/-- C8: on quality clamped to [1,100] the mapping equals
round(31 - (quality/100)*30), with the endpoint values 100 to 1 and 1 to
31, it is non-increasing as quality increases over [1,100], and the
thumbnail setting is min(frame setting + 2, 31). -/
theorem quality_to_qscale_spec (q : Nat) (hq : 1 ≤ q) (h2 : q ≤ 100) :
    quality_to_qscale q = (round ((31 : ℚ) - ((q : ℚ) / 100) * 30)).toNat ∧
    quality_to_qscale 100 = 1 ∧
    quality_to_qscale 1 = 31 ∧
    (∀ q2, q ≤ q2 → q2 ≤ 100 → quality_to_qscale q2 ≤ quality_to_qscale q) ∧
    (∀ t s, (thumbInv t s).qv = min (quality_to_qscale t.quality + 2) 31) := by
  have hform : ∀ m : Nat, m ≤ 100 →
      quality_to_qscale m = (round ((31 : ℚ) - ((m : ℚ) / 100) * 30)).toNat := by
    intro m hm
    have hle : ((m : ℚ) / 100) ≤ 1 := by
      rw [div_le_one (by norm_num)]
      exact_mod_cast hm
    have h0 : (0 : ℚ) ≤ (m : ℚ) / 100 := by positivity
    simp [quality_to_qscale, min_eq_left hle, max_eq_right h0]
  have hmono : ∀ a b : Nat, a ≤ b → b ≤ 100 →
      quality_to_qscale b ≤ quality_to_qscale a := by
    intro a b hab hb
    have ha : a ≤ 100 := le_trans hab hb
    rw [hform a ha, hform b hb]
    apply Int.toNat_le_toNat
    rw [round_eq, round_eq]
    apply Int.floor_le_floor
    have : ((a : ℚ) / 100) * 30 ≤ ((b : ℚ) / 100) * 30 := by
      have : (a : ℚ) ≤ (b : ℚ) := by exact_mod_cast hab
      nlinarith
    linarith
  refine ⟨hform q h2, ?_, ?_, fun q2 hq2 hq2b => hmono q q2 hq2 hq2b, fun t s => rfl⟩
  · norm_num [quality_to_qscale]
  · norm_num [quality_to_qscale, round_eq]
    rfl

/-- Witness for the quality mapping theorem at quality 85 (the default):
qscale 6. -/
theorem quality_to_qscale_spec_witness :
    quality_to_qscale 85 = (round ((31 : ℚ) - ((85 : ℚ) / 100) * 30)).toNat ∧
    quality_to_qscale 85 = 6 :=
  ⟨(quality_to_qscale_spec 85 (by decide) (by decide)).1, by
    norm_num [quality_to_qscale, round_eq]
    rfl⟩

/-- Membership in the file set survives adding a file. -/
theorem pathExists_cons (fs : List Str) (rs : List Invocation) (p q : Str)
    (h : World.pathExists ⟨fs, rs⟩ p = true) :
    World.pathExists ⟨q :: fs, rs⟩ p = true := by
  simp only [World.pathExists] at h ⊢
  simp only [List.contains_cons, h, Bool.or_true]

/-- A freshly added file exists. -/
theorem pathExists_self (fs : List Str) (rs : List Invocation) (p : Str) :
    World.pathExists ⟨p :: fs, rs⟩ p = true := by
  simp [World.pathExists, List.contains_cons]

/-- After a successful frame step the frame file exists, and the file set
only grew. -/
theorem frameStep_ok (oracle : Invocation → CmdResult) (w w1 : World) (t : ExtractionTask)
    (h : frameStep oracle w t = (w1, .ok ())) :
    w1.pathExists t.frame_path = true ∧
    (∀ p, w.pathExists p = true → w1.pathExists p = true) := by
  rw [frameStep] at h
  by_cases hf : w.pathExists t.frame_path = true
  · simp only [hf, Bool.not_true, Bool.false_eq_true, if_false] at h
    injection h with hw he
    subst hw
    exact ⟨hf, fun p hp => hp⟩
  · simp only [Bool.not_eq_true] at hf
    simp only [hf, Bool.not_false, if_true, runCmd] at h
    rcases ho : oracle (frameInv t t.timestamp.to_ffmpeg) with msg | ⟨succ, stderr⟩
    · rw [ho] at h; simp at h
    · rw [ho] at h
      cases succ
      · simp at h
      · simp only [] at h
        injection h with hw he
        subst hw
        refine ⟨pathExists_self .., fun p hp => ?_⟩
        exact pathExists_cons _ _ _ _ hp

/-- After a successful thumbnail step the file set only grew, and either
the thumbnail exists or it was not requested (zero width or empty path). -/
theorem thumbStep_ok (oracle : Invocation → CmdResult) (w1 w2 : World) (t : ExtractionTask)
    (h : thumbStep oracle w1 t = (w2, .ok ())) :
    (∀ p, w1.pathExists p = true → w2.pathExists p = true) ∧
    (w2.pathExists t.thumb_path = true ∨ (t.thumb_width != 0) = false ∨
      t.thumb_path.isEmpty = true) := by
  rw [thumbStep] at h
  by_cases he : w1.pathExists t.thumb_path = true
  · simp only [he, Bool.not_true, Bool.and_false, Bool.false_eq_true, if_false] at h
    injection h with hw _
    subst hw
    exact ⟨fun p hp => hp, Or.inl he⟩
  · simp only [Bool.not_eq_true] at he
    by_cases ha : (t.thumb_width != 0 && !t.thumb_path.isEmpty) = true
    · simp only [ha, he, Bool.not_false, Bool.and_true, if_true, runCmd] at h
      rcases ho : oracle (thumbInv t t.timestamp.to_ffmpeg) with msg | ⟨succ, stderr⟩
      · rw [ho] at h; simp at h
      · rw [ho] at h
        cases succ
        · simp at h
        · simp only [] at h
          injection h with hw _
          subst hw
          exact ⟨fun p hp => pathExists_cons _ _ _ _ hp, Or.inl (pathExists_self ..)⟩
    · have hcond : (t.thumb_width != 0 && !t.thumb_path.isEmpty && !w1.pathExists t.thumb_path) = false := by
        cases htw : (t.thumb_width != 0) with
        | false => simp [htw]
        | true =>
          cases hie : t.thumb_path.isEmpty with
          | false => exact absurd (by simp [htw, hie]) ha
          | true => simp [htw, hie]
      rw [hcond] at h
      simp only [Bool.false_eq_true, if_false] at h
      injection h with hw _
      subst hw
      refine ⟨fun p hp => hp, ?_⟩
      cases htw : (t.thumb_width != 0) with
      | false => exact Or.inr (Or.inl rfl)
      | true =>
        cases hie : t.thumb_path.isEmpty with
        | false => exact absurd (by simp [htw, hie]) ha
        | true => exact Or.inr (Or.inr rfl)

/-- C5: extraction is idempotent.  When both output files already exist,
ExtractionTask::execute leaves the world unchanged (zero external-tool
invocations, both files untouched) and returns success; consequently a
second run of the executor over outputs of a successful run performs zero
invocations and leaves the world unchanged. -/
theorem execute_idempotent (oracle : Invocation → CmdResult) (w : World) (t : ExtractionTask) :
    (w.pathExists t.frame_path = true → w.pathExists t.thumb_path = true →
      ExtractionTask.execute oracle w t = (w, .ok ())) ∧
    (∀ w1, ExtractionTask.execute oracle w t = (w1, .ok ()) →
      ExtractionTask.execute oracle w1 t = (w1, .ok ())) := by
  constructor
  · intro h1 h2
    rw [ExtractionTask.execute]
    simp [h1, h2]
  · intro w1 h
    rw [ExtractionTask.execute] at h
    by_cases hb : (w.pathExists t.frame_path && w.pathExists t.thumb_path) = true
    · rw [if_pos hb] at h
      injection h with hw _
      subst hw
      rw [ExtractionTask.execute, if_pos hb]
    · rw [if_neg hb] at h
      rcases hfs : frameStep oracle w t with ⟨wa, ra⟩
      rw [hfs] at h
      cases ra with
      | error e => simp at h
      | ok u =>
        cases u
        obtain ⟨ha1, _⟩ := frameStep_ok oracle w wa t hfs
        obtain ⟨hb1, hb2⟩ := thumbStep_ok oracle wa w1 t h
        have e1 : w1.pathExists t.frame_path = true := hb1 _ ha1
        rw [ExtractionTask.execute]
        rcases hb2 with h2 | h2 | h2
        · rw [if_pos (by simp [e1, h2])]
        · by_cases hbb : (w1.pathExists t.frame_path && w1.pathExists t.thumb_path) = true
          · rw [if_pos hbb]
          · rw [if_neg hbb]
            have hstep : frameStep oracle w1 t = (w1, .ok ()) := by
              rw [frameStep]; simp [e1]
            rw [hstep]
            show thumbStep oracle w1 t = (w1, .ok ())
            rw [thumbStep]
            simp [h2]
        · by_cases hbb : (w1.pathExists t.frame_path && w1.pathExists t.thumb_path) = true
          · rw [if_pos hbb]
          · rw [if_neg hbb]
            have hstep : frameStep oracle w1 t = (w1, .ok ()) := by
              rw [frameStep]; simp [e1]
            rw [hstep]
            show thumbStep oracle w1 t = (w1, .ok ())
            rw [thumbStep]
            simp [h2]

/-- Witness for the idempotence theorem: a task whose two outputs exist is
a no-op, and a successful run is absorbed by a second run. -/
theorem execute_idempotent_witness :
    ExtractionTask.execute (fun _ => .exited true [])
        ⟨["f".data, "t".data], []⟩
        ⟨"v".data, ⟨1000⟩, "f".data, "t".data, 85, 320⟩ =
      (⟨["f".data, "t".data], []⟩, .ok ()) :=
  (execute_idempotent (fun _ => .exited true []) ⟨["f".data, "t".data], []⟩
      ⟨"v".data, ⟨1000⟩, "f".data, "t".data, 85, 320⟩).1 (by decide) (by decide)

/-- C1 counterexample: two tasks, the first of which fails with a non-zero
exit.  extract_frames returns the FrameExtraction error of the first task,
yet the invocation log of the run contains the frame invocation of the
second task (output 5000.jpg): the first error does not abort the remaining
tasks of the episode. -/
theorem extract_frames_no_abort_counterexample :
    (FrameExtractor.extract_frames
        (fun inv => if inv.out = "out/img/frames/S01E01/1000.jpg".data
          then .exited false "boom".data else .exited true [])
        true 85 320 "v.mkv".data "S01E01".data "out".data
        [SubtitleEntry.new 1 ⟨0⟩ ⟨2000⟩ "A".data, SubtitleEntry.new 2 ⟨4000⟩ ⟨6000⟩ "B".data]
        ⟨[], []⟩).2 =
      .error (.FrameExtraction "v.mkv".data 1000 "boom".data) ∧
    "out/img/frames/S01E01/5000.jpg".data ∈
      ((FrameExtractor.extract_frames
        (fun inv => if inv.out = "out/img/frames/S01E01/1000.jpg".data
          then .exited false "boom".data else .exited true [])
        true 85 320 "v.mkv".data "S01E01".data "out".data
        [SubtitleEntry.new 1 ⟨0⟩ ⟨2000⟩ "A".data, SubtitleEntry.new 2 ⟨4000⟩ ⟨6000⟩ "B".data]
        ⟨[], []⟩).1.runs.map Invocation.out) := by
  refine ⟨?_, ?_⟩ <;> decide

/-- C1 amended: a non-zero exit of a frame invocation produces a
FrameExtraction error carrying the video path, the midpoint timestamp and
the captured stderr, and extract_frames returns the first error in task
order, but only after the whole task batch has executed: the batch over
a decomposition ts1 followed by t followed by ts2 runs ts1, then t, then
ts2 regardless of failures inside ts1 or at t, and the first error of the
collected results is the one returned. -/
theorem extract_frames_first_error_after_full_batch
    (oracle : Invocation → CmdResult) (w : World) (ts1 ts2 : List ExtractionTask)
    (t : ExtractionTask) (msg : Str) :
    (runTasks oracle w (ts1 ++ t :: ts2) =
      ((runTasks oracle (ExtractionTask.execute oracle (runTasks oracle w ts1).1 t).1 ts2).1,
        (runTasks oracle w ts1).2 ++
          (ExtractionTask.execute oracle (runTasks oracle w ts1).1 t).2 ::
            (runTasks oracle (ExtractionTask.execute oracle (runTasks oracle w ts1).1 t).1 ts2).2)) ∧
    (w.pathExists t.frame_path = false →
      oracle (frameInv t t.timestamp.to_ffmpeg) = .exited false msg →
      ExtractionTask.execute oracle w t =
        (⟨w.files, w.runs ++ [frameInv t t.timestamp.to_ffmpeg]⟩,
          .error (.FrameExtraction t.video_path t.timestamp.ms msg))) ∧
    (∀ (rs1 rs2 : List (Except AnytronError Unit)) (e : AnytronError),
      (∀ r ∈ rs1, r = .ok ()) → firstErr (rs1 ++ .error e :: rs2) = .error e) := by
  refine ⟨?_, ?_, ?_⟩
  · induction ts1 generalizing w with
    | nil => simp [runTasks]
    | cons t1 ts1 ih =>
      simp only [List.cons_append, runTasks, List.append_eq]
      rw [ih]
  · intro h1 h2
    rw [ExtractionTask.execute]
    have hb : (w.pathExists t.frame_path && w.pathExists t.thumb_path) = false := by
      simp [h1]
    rw [hb]
    simp only [Bool.false_eq_true, if_false]
    have hfs : frameStep oracle w t =
        (⟨w.files, w.runs ++ [frameInv t t.timestamp.to_ffmpeg]⟩,
          .error (.FrameExtraction t.video_path t.timestamp.ms msg)) := by
      rw [frameStep]
      simp only [h1, Bool.not_false, if_true, runCmd, h2]
    rw [hfs]
  · intro rs1 rs2 e hok
    induction rs1 with
    | nil => simp [firstErr]
    | cons r rs ih =>
      have hr : r = .ok () := hok r (by simp)
      subst hr
      simp only [List.cons_append, firstErr]
      exact ih (fun r hr => hok r (by simp [hr]))

/-- Witness for the amended extract_frames theorem: one task with an empty
prefix and suffix, failing frame invocation. -/
theorem extract_frames_first_error_after_full_batch_witness :
    ExtractionTask.execute (fun _ => .exited false "boom".data) ⟨[], []⟩
        ⟨"v".data, ⟨1000⟩, "f".data, "t".data, 85, 320⟩ =
      (⟨[], [] ++ [frameInv ⟨"v".data, ⟨1000⟩, "f".data, "t".data, 85, 320⟩
          (Timestamp.to_ffmpeg ⟨1000⟩)]⟩,
        .error (.FrameExtraction "v".data 1000 "boom".data)) :=
  (extract_frames_first_error_after_full_batch (fun _ => .exited false "boom".data)
      ⟨[], []⟩ [] [] ⟨"v".data, ⟨1000⟩, "f".data, "t".data, 85, 320⟩ "boom".data).2.1
    (by decide) rfl

/-- Loop invariant for C7: while no Format line has been seen, the parser
loop errors out exactly at the line the claim-side scan points to. -/
theorem parseLoop_dialogue_before_format (path : Str) (i : Nat) :
    ∀ (lines : List Str) (in_events : Bool) (n index : Nat) (entries : List SubtitleEntry),
      dialogueBeforeFormatIdx lines in_events n = some i →
      Ass.parseLoop path (List.enumFrom n lines) in_events none index entries =
        .error (.SubtitleParse path (i + 1) "Dialogue line before Format line".data) := by
  intro lines
  induction lines with
  | nil =>
    intro in_events n index entries h
    simp [dialogueBeforeFormatIdx] at h
  | cons raw rest ih =>
    intro in_events n index entries h
    simp only [dialogueBeforeFormatIdx] at h
    rw [List.enumFrom]
    simp only [Ass.parseLoop]
    by_cases h1 : ((strTrim raw).headD ' ' == '[' && (strTrim raw).getLastD ' ' == ']') = true
    · simp only [h1, if_true] at h ⊢
      exact ih _ _ _ _ h
    · rw [Bool.not_eq_true] at h1
      simp only [h1, Bool.false_eq_true, if_false] at h ⊢
      by_cases h2 : in_events = true
      · simp only [h2, Bool.not_true, Bool.false_eq_true, if_false] at h ⊢
        by_cases h3 : ("format:".data.isPrefixOf ((strTrim raw).map asciiLower)) = true
        · simp only [h3, if_true] at h
          exact absurd h (by simp)
        · rw [Bool.not_eq_true] at h3
          simp only [h3, Bool.false_eq_true, if_false] at h ⊢
          by_cases h4 : ("dialogue:".data.isPrefixOf ((strTrim raw).map asciiLower)) = true
          · simp only [h4, if_true] at h ⊢
            rw [Option.some.injEq] at h
            subst h
            rfl
          · rw [Bool.not_eq_true] at h4
            simp only [h4, Bool.false_eq_true, if_false] at h ⊢
            exact ih _ _ _ _ h
      · rw [Bool.not_eq_true] at h2
        simp only [h2, Bool.not_false, if_true] at h ⊢
        exact ih _ _ _ _ h

/-- C7: whenever a Dialogue line inside the [Events] section occurs before
any Format line has been seen, ass.rs parse_str returns the hard
SubtitleParse error "Dialogue line before Format line" carrying the file
path and the 1-based line number of that Dialogue line; no entries are
returned. -/
theorem ass_dialogue_before_format_error (content path : Str) (i : Nat)
    (h : dialogueBeforeFormatIdx
        (linesOf (replaceCRLF (content.dropWhile (· == '\uFEFF')))) false 0 = some i) :
    Ass.parse_str content path =
      .error (.SubtitleParse path (i + 1) "Dialogue line before Format line".data) := by
  rw [Ass.parse_str]
  have henum : (linesOf (replaceCRLF (content.dropWhile (· == '\uFEFF')))).enum =
      List.enumFrom 0 (linesOf (replaceCRLF (content.dropWhile (· == '\uFEFF')))) := rfl
  rw [henum]
  exact parseLoop_dialogue_before_format path i _ false 0 0 [] h

/-- Witness for C7: a Dialogue line directly under the [Events] header (the
second line of the file) is rejected with the 1-based line number 2. -/
theorem ass_dialogue_before_format_error_witness :
    Ass.parse_str "[Events]\nDialogue: 0,0:00:01.00,0:00:02.00,Hi".data "test.ass".data =
      .error (.SubtitleParse "test.ass".data 2 "Dialogue line before Format line".data) :=
  ass_dialogue_before_format_error
    "[Events]\nDialogue: 0,0:00:01.00,0:00:02.00,Hi".data "test.ass".data 1 (by decide)

/-- C10: parse_vtt applies no range validation to its numeric components.
For every input whose trimmed text splits on colons and dots into three
all-numeric fields, the result is Ok of from_hms_ms with hours implicitly
0, and likewise with explicit hours for four fields; whenever the exact sum
fits in u64, the stored value is hours*3600000 + minutes*60000 +
seconds*1000 + millis.  The two closed conjuncts exhibit the contrast with
parse_srt: "99:99.9999" is accepted with value 6048999 while parse_srt
rejects a 99-minute component. -/
theorem parse_vtt_no_range_validation (s : Str) :
    (∀ p0 p1 p2 m sec ms,
      splitAny [':', '.'] (strTrim s) = [p0, p1, p2] →
      parseU64 p0 = some m → parseU64 p1 = some sec → parseU64 p2 = some ms →
      Timestamp.parse_vtt s = .ok (Timestamp.from_hms_ms 0 m sec ms)) ∧
    (∀ p0 p1 p2 p3 h m sec ms,
      splitAny [':', '.'] (strTrim s) = [p0, p1, p2, p3] →
      parseU64 p0 = some h → parseU64 p1 = some m → parseU64 p2 = some sec →
      parseU64 p3 = some ms →
      Timestamp.parse_vtt s = .ok (Timestamp.from_hms_ms h m sec ms)) ∧
    (∀ h m sec ms, h * 3600 * 1000 + m * 60 * 1000 + sec * 1000 + ms < U64 →
      (Timestamp.from_hms_ms h m sec ms).ms =
        h * 3600000 + m * 60000 + sec * 1000 + ms) ∧
    Timestamp.parse_vtt "99:99.9999".data = .ok ⟨6048999⟩ ∧
    Timestamp.parse_srt "00:99:00,000".data =
      .error (.InvalidTimestamp ("Invalid minutes (must be 0-59): ".data ++ decRepr 99)) := by
  refine ⟨?_, ?_, ?_, by decide, by decide⟩
  · intro p0 p1 p2 m sec ms hsplit h0 h1 h2
    simp only [Timestamp.parse_vtt]
    rw [hsplit]
    simp [parseTsField, h0, h1, h2, Bind.bind, Except.bind]
  · intro p0 p1 p2 p3 h m sec ms hsplit h0 h1 h2 h3
    simp only [Timestamp.parse_vtt]
    rw [hsplit]
    simp [parseTsField, h0, h1, h2, h3, Bind.bind, Except.bind]
  · intro h m sec ms hlt
    simp only [Timestamp.from_hms_ms, wrap64]
    rw [Nat.mod_eq_of_lt hlt]
    ring

/-- Witness for C10 at the out-of-range input "99:99.9999": minutes 99,
seconds 99, milliseconds 9999 are accepted verbatim. -/
theorem parse_vtt_no_range_validation_witness :
    Timestamp.parse_vtt "99:99.9999".data =
      .ok (Timestamp.from_hms_ms 0 99 99 9999) :=
  (parse_vtt_no_range_validation "99:99.9999".data).1 "99".data "99".data "9999".data
    99 99 9999 (by decide) (by decide) (by decide) (by decide)

/-- Digit facts for a single decimal digit. -/
theorem decDigit_spec (d : Nat) (hd : d < 10) :
    isDigitChar (decDigit d) = true ∧ (decDigit d).toNat - 48 = d := by
  interval_cases d <;> exact ⟨by decide, by decide⟩

/-- Behaviour of the fueled digit expansion below its fuel bound: the
digits are ASCII digits, the list is non-empty, and its value is the input. -/
theorem decDigitsAux_spec (fuel : Nat) :
    ∀ n, n < 10 ^ (fuel + 1) →
      decDigitsAux (fuel + 1) n ≠ [] ∧
      (∀ c ∈ decDigitsAux (fuel + 1) n, isDigitChar c = true) ∧
      digitsVal (decDigitsAux (fuel + 1) n) = n := by
  induction fuel with
  | zero =>
    intro n hn
    have h10 : n < 10 := by simpa using hn
    rw [decDigitsAux, if_pos h10]
    refine ⟨by simp, ?_, ?_⟩
    · intro c hc
      simp only [List.mem_singleton] at hc
      subst hc
      exact (decDigit_spec n h10).1
    · simp [digitsVal, (decDigit_spec n h10).2]
  | succ fuel ih =>
    intro n hn
    by_cases h10 : n < 10
    · rw [decDigitsAux, if_pos h10]
      refine ⟨by simp, ?_, ?_⟩
      · intro c hc
        simp only [List.mem_singleton] at hc
        subst hc
        exact (decDigit_spec n h10).1
      · simp [digitsVal, (decDigit_spec n h10).2]
    · rw [decDigitsAux, if_neg h10]
      have hdiv : n / 10 < 10 ^ (fuel + 1) := by
        rw [Nat.div_lt_iff_lt_mul (by norm_num)]
        calc n < 10 ^ (fuel + 1 + 1) := hn
        _ = 10 ^ (fuel + 1) * 10 := by ring
      obtain ⟨hne, hdig, hval⟩ := ih (n / 10) hdiv
      have hmod : n % 10 < 10 := Nat.mod_lt _ (by norm_num)
      refine ⟨by simp, ?_, ?_⟩
      · intro c hc
        rw [List.mem_append] at hc
        rcases hc with hc | hc
        · exact hdig c hc
        · simp only [List.mem_singleton] at hc
          subst hc
          exact (decDigit_spec _ hmod).1
      · show digitsVal (decDigitsAux (fuel + 1) (n / 10) ++ [decDigit (n % 10)]) = n
        rw [digitsVal, List.foldl_append]
        show digitsVal (decDigitsAux (fuel + 1) (n / 10)) * 10 +
          ((decDigit (n % 10)).toNat - 48) = n
        rw [hval, (decDigit_spec _ hmod).2]
        omega

/-- The decimal representation of any value below 10 ^ 24 (every u64 in
particular) is a non-empty ASCII digit string evaluating to the value. -/
theorem decRepr_spec (n : Nat) (hn : n < 10 ^ 24) :
    decRepr n ≠ [] ∧ (∀ c ∈ decRepr n, isDigitChar c = true) ∧ digitsVal (decRepr n) = n :=
  decDigitsAux_spec 23 n hn

/-- A leading zero does not change the numeric value. -/
theorem digitsVal_cons_zero (l : Str) : digitsVal ('0' :: l) = digitsVal l := rfl

/-- Zero padding does not change the numeric value. -/
theorem digitsVal_pad (k : Nat) (ds : Str) :
    digitsVal (List.replicate k '0' ++ ds) = digitsVal ds := by
  induction k with
  | zero => simp
  | succ k ih => rw [List.replicate_succ, List.cons_append, digitsVal_cons_zero, ih]

/-- Numeric parsing accepts any non-empty all-digit string whose value fits
in u64. -/
theorem parseU64_digits (ds : Str) (hne : ds ≠ [])
    (hdig : ∀ c ∈ ds, isDigitChar c = true) (hU : digitsVal ds < U64) :
    parseU64 ds = some (digitsVal ds) := by
  cases ds with
  | nil => exact absurd rfl hne
  | cons c cs =>
    have hc : isDigitChar c = true := hdig c (by simp)
    have hplus : (c == '+') = false := by
      rw [beq_eq_false_iff_ne]
      intro e
      subst e
      exact absurd hc (by decide)
    simp only [parseU64, List.headD, hplus, Bool.false_eq_true, if_false]
    rw [if_neg (by simp), if_pos (by simpa [List.all_eq_true] using hdig), if_pos hU]

/-- Zero-padded decimal representations parse back to their value. -/
theorem parseU64_padZeros (w n : Nat) (hU : n < U64) :
    (∀ c ∈ padZeros w (decRepr n), isDigitChar c = true) ∧
    parseU64 (padZeros w (decRepr n)) = some n := by
  have h24 : n < 10 ^ 24 := lt_trans hU (by norm_num [U64])
  obtain ⟨hne, hdig, hval⟩ := decRepr_spec n h24
  have hdigAll : ∀ c ∈ padZeros w (decRepr n), isDigitChar c = true := by
    intro c hc
    rw [padZeros, List.mem_append] at hc
    rcases hc with hc | hc
    · rw [List.eq_of_mem_replicate hc]
      decide
    · exact hdig c hc
  have hvalp : digitsVal (padZeros w (decRepr n)) = n := by
    rw [padZeros, digitsVal_pad, hval]
  have hnep : padZeros w (decRepr n) ≠ [] := by
    rw [padZeros]
    intro he
    rw [List.append_eq_nil] at he
    exact hne he.2
  refine ⟨hdigAll, ?_⟩
  rw [parseU64_digits _ hnep hdigAll (by rw [hvalp]; exact hU), hvalp]

/-- ASCII digits are not the separators of the VTT timestamp grammar. -/
theorem digit_not_sep (c : Char) (h : isDigitChar c = true) :
    ([':', '.'] : List Char).contains c = false := by
  have h1 : (c == ':') = false := by
    rw [beq_eq_false_iff_ne]
    intro e
    subst e
    exact absurd h (by decide)
  have h2 : (c == '.') = false := by
    rw [beq_eq_false_iff_ne]
    intro e
    subst e
    exact absurd h (by decide)
  simp [List.contains, List.elem, h1, h2]

/-- ASCII digits are not whitespace. -/
theorem digit_not_ws (c : Char) (h : isDigitChar c = true) : isRustWhitespace c = false := by
  simp only [isDigitChar, Bool.and_eq_true, decide_eq_true_eq] at h
  rw [Bool.eq_false_iff]
  intro hw
  simp only [isRustWhitespace, Bool.or_eq_true, Bool.and_eq_true, decide_eq_true_eq,
    beq_iff_eq] at hw
  omega

/-- Trimming is the identity on whitespace-free strings. -/
theorem strTrim_eq_self (s : Str) (h : ∀ c ∈ s, isRustWhitespace c = false) :
    strTrim s = s := by
  have h1 : s.dropWhile isRustWhitespace = s := by
    cases s with
    | nil => rfl
    | cons c cs =>
      rw [List.dropWhile_cons, h c (by simp)]
      simp
  rw [strTrim, h1]
  have h2 : s.reverse.dropWhile isRustWhitespace = s.reverse := by
    cases hr : s.reverse with
    | nil => rfl
    | cons c cs =>
      have hc : c ∈ s := by
        rw [← List.mem_reverse, hr]
        simp
      rw [List.dropWhile_cons, h c hc]
      simp
  rw [h2, List.reverse_reverse]

/-- Splitting distributes over a separator that follows a separator-free
prefix. -/
theorem splitAny_append_sep (seps : List Char) (a : Str) (c : Char) (b : Str)
    (ha : ∀ x ∈ a, seps.contains x = false) (hc : seps.contains c = true) :
    splitAny seps (a ++ c :: b) = a :: splitAny seps b := by
  induction a with
  | nil => rw [List.nil_append, splitAny, if_pos hc]
  | cons x xs ih =>
    have hx : seps.contains x = false := ha x (by simp)
    simp only [List.cons_append, splitAny, hx, Bool.false_eq_true, if_false, List.append_eq]
    rw [ih (fun y hy => ha y (by simp [hy]))]

/-- Splitting a separator-free string yields a single piece. -/
theorem splitAny_no_sep (seps : List Char) (a : Str)
    (ha : ∀ x ∈ a, seps.contains x = false) :
    splitAny seps a = [a] := by
  induction a with
  | nil => rfl
  | cons x xs ih =>
    simp only [splitAny, ha x (by simp), Bool.false_eq_true, if_false]
    rw [ih (fun y hy => ha y (by simp [hy]))]

/-- Shared unfolding of parse_vtt on a four-field split. -/
theorem parse_vtt_four_fields (s p0 p1 p2 p3 : Str) (h m sec ms : Nat)
    (hsplit : splitAny [':', '.'] (strTrim s) = [p0, p1, p2, p3])
    (h0 : parseU64 p0 = some h) (h1 : parseU64 p1 = some m)
    (h2 : parseU64 p2 = some sec) (h3 : parseU64 p3 = some ms) :
    Timestamp.parse_vtt s = .ok (Timestamp.from_hms_ms h m sec ms) := by
  simp only [Timestamp.parse_vtt]
  rw [hsplit]
  simp [parseTsField, h0, h1, h2, h3, Bind.bind, Except.bind]

/-- C9: the seek-time formatter round-trips through the VTT grammar.  For
every u64 millisecond value, to_ffmpeg emits HH:MM:SS.mmm with minutes and
seconds below 60 and exactly three millisecond digits, and parse_vtt reads
it back to the same value. -/
theorem to_ffmpeg_parse_vtt_roundtrip (t : Nat) (ht : t < U64) :
    Timestamp.parse_vtt (Timestamp.to_ffmpeg ⟨t⟩) = .ok ⟨t⟩ := by
  have hU : U64 = 18446744073709551616 := by norm_num [U64]
  have hhrs : t / 1000 / 3600 < U64 := by omega
  have hmins : t / 1000 % 3600 / 60 < U64 := by omega
  have hsecs : t / 1000 % 60 < U64 := by omega
  have hmills : t % 1000 < U64 := by omega
  obtain ⟨hd0, hp0⟩ := parseU64_padZeros 2 (t / 1000 / 3600) hhrs
  obtain ⟨hd1, hp1⟩ := parseU64_padZeros 2 (t / 1000 % 3600 / 60) hmins
  obtain ⟨hd2, hp2⟩ := parseU64_padZeros 2 (t / 1000 % 60) hsecs
  obtain ⟨hd3, hp3⟩ := parseU64_padZeros 3 (t % 1000) hmills
  have hform : Timestamp.to_ffmpeg ⟨t⟩ =
      padZeros 2 (decRepr (t / 1000 / 3600)) ++ ':' ::
        (padZeros 2 (decRepr (t / 1000 % 3600 / 60)) ++ ':' ::
          (padZeros 2 (decRepr (t / 1000 % 60)) ++ '.' :: padZeros 3 (decRepr (t % 1000)))) := rfl
  have hnows : ∀ c ∈ Timestamp.to_ffmpeg (⟨t⟩ : Timestamp), isRustWhitespace c = false := by
    intro c hc
    rw [hform] at hc
    simp only [List.mem_append, List.mem_cons] at hc
    rcases hc with hc | hc | hc | hc | hc | hc
    · exact digit_not_ws c (hd0 c hc)
    · subst hc; decide
    · exact digit_not_ws c (hd1 c hc)
    · subst hc; decide
    · exact digit_not_ws c (hd2 c hc)
    · rcases hc with hc | hc
      · subst hc; decide
      · exact digit_not_ws c (hd3 c hc)
  have hsplit : splitAny [':', '.'] (strTrim (Timestamp.to_ffmpeg ⟨t⟩)) =
      [padZeros 2 (decRepr (t / 1000 / 3600)), padZeros 2 (decRepr (t / 1000 % 3600 / 60)),
        padZeros 2 (decRepr (t / 1000 % 60)), padZeros 3 (decRepr (t % 1000))] := by
    rw [strTrim_eq_self _ hnows, hform]
    rw [splitAny_append_sep _ _ _ _ (fun x hx => digit_not_sep x (hd0 x hx)) (by decide)]
    rw [splitAny_append_sep _ _ _ _ (fun x hx => digit_not_sep x (hd1 x hx)) (by decide)]
    rw [splitAny_append_sep _ _ _ _ (fun x hx => digit_not_sep x (hd2 x hx)) (by decide)]
    rw [splitAny_no_sep _ _ (fun x hx => digit_not_sep x (hd3 x hx))]
  rw [parse_vtt_four_fields _ _ _ _ _ _ _ _ _ hsplit hp0 hp1 hp2 hp3]
  congr 1
  simp only [Timestamp.from_hms_ms, wrap64, Timestamp.mk.injEq]
  have h1 : t / 1000 % 60 = t / 1000 % 3600 % 60 :=
    (Nat.mod_mod_of_dvd _ (by norm_num)).symm
  have hid : t / 1000 / 3600 * 3600 * 1000 + t / 1000 % 3600 / 60 * 60 * 1000 +
      t / 1000 % 60 * 1000 + t % 1000 = t := by
    rw [h1]
    omega
  rw [hid]
  exact Nat.mod_eq_of_lt ht

/-- Witness for the round-trip theorem at 5025678 ms (01:23:45.678). -/
theorem to_ffmpeg_parse_vtt_roundtrip_witness :
    Timestamp.parse_vtt (Timestamp.to_ffmpeg ⟨5025678⟩) = .ok ⟨5025678⟩ :=
  to_ffmpeg_parse_vtt_roundtrip 5025678 (by decide)
